import Mathlib

/-!
Verification development for the GFS surface-flux acquisition pipeline
(`pyschism/forcing/nws/nws2/gfs2.py`).

The development shallowly embeds the two components of the module:

* `AWSGrib2Inventory` — key filtering (`validKey`, `file_metadata`), the
  slice of keys selected for download (`selectedKeys`), the download loop
  that creates a local file before attempting each transfer
  (`downloadKeys`), and the glob that recovers the local files
  (`invFiles`).
* `GFS` — the bounding-box window computation (`modified_latlon`), the
  per-hour field extraction with its row reversal (`windowField`,
  `extractFile`, `extractFiles`), and the daily assembly (`gen_sflux`),
  which also records an event trace so that the position of the final
  write can be reasoned about.

Real numbers from the source (degrees, field values, fractional days) are
modelled as rationals; strings are modelled as Lean strings ordered by the
code-point lexicographic order `lexLe`, matching Python string comparison.
The float32 cast in the source is value-preserving at this level of
abstraction and is not modelled.
-/

/-- Code-point lexicographic comparison of character lists; this is the
order Python uses to compare the object keys that appear in the listing. -/
def lexLe : List Char → List Char → Bool
  | [], _ => true
  | _ :: _, [] => false
  | a :: as, b :: bs =>
    if a.toNat < b.toNat then true
    else if b.toNat < a.toNat then false
    else lexLe as bs

/-- `isLeadOf p l` holds when `p` occurs at the very start of `l`. -/
def isLeadOf : List Char → List Char → Bool
  | [], _ => true
  | _ :: _, [] => false
  | a :: as, b :: bs => a == b && isLeadOf as bs

/-- `isSubOf p l` holds when `p` occurs contiguously somewhere inside `l`;
this models the Python `in` test on strings. -/
def isSubOf (p : List Char) : List Char → Bool
  | [] => isLeadOf p []
  | b :: bs => isLeadOf p (b :: bs) || isSubOf p bs

/-- The filter of `AWSGrib2Inventory.__init__`: keep a key when it contains
both `0p25` and `pgrb2` and none of `goessim`, `anl`, `idx`. -/
def validKey (k : String) : Bool :=
  isSubOf "0p25".data k.data && isSubOf "pgrb2".data k.data &&
    !isSubOf "goessim".data k.data && !isSubOf "anl".data k.data &&
    !isSubOf "idx".data k.data

/-- `file_metadata`: the listing filtered by `validKey` and sorted
lexically ascending (Python `sorted`). -/
def file_metadata (keys : List String) : List String :=
  List.insertionSort (fun a b : String => lexLe a.data b.data = true)
    (keys.filter validKey)

/-- The keys actually iterated by the download loop:
`file_metadata[1 : record*24 + 1]`. -/
def selectedKeys (keys : List String) (record : Nat) : List String :=
  ((file_metadata keys).drop 1).take (record * 24)

/-- One local scratch file: its path and whether the body of the `try`
block succeeded.  `downloaded = false` models a zero-byte file left behind
by `open(filename, "wb")` when `download_fileobj` raised. -/
structure FsFile where
  path : String
  downloaded : Bool
deriving DecidableEq

/-- The download loop of `AWSGrib2Inventory.__init__`: for every selected
key the local file `key ++ ".grib2"` is created by `open(..., "wb")`
before the transfer is attempted, so the file exists whether or not the
transfer (given by the oracle `ok`) succeeds; a failure is only logged. -/
def downloadKeys (keys : List String) (ok : String → Bool) : List FsFile :=
  keys.map fun k => ⟨k ++ ".grib2", ok k⟩

/-- Two-digit zero-padded hour, as in `f"{self.cycle:02d}"`. -/
def twoDigit (n : Nat) : String := if n < 10 then "0" ++ toString n else toString n

/-- The fixed part of the glob used by `AWSGrib2Inventory.files`,
everything before the `*`. -/
def globPre (dateStr : String) (cycle : Nat) (product : String) : String :=
  "gfs." ++ dateStr ++ "/" ++ twoDigit cycle ++ "/" ++ product ++
    "/gfs.t" ++ twoDigit cycle ++ "z.pgrb2.0p25.f"

/-- A path matches the glob `gpre ++ "*" ++ ".grib2"`. -/
def globMatch (gpre : String) (p : String) : Bool :=
  isLeadOf gpre.data p.data && isLeadOf ".grib2".data.reverse p.data.reverse

/-- `AWSGrib2Inventory.files`: the paths present in the scratch directory
that match the glob, sorted lexically ascending. -/
def invFiles (gpre : String) (fsys : List FsFile) : List String :=
  List.insertionSort (fun a b : String => lexLe a.data b.data = true)
    ((fsys.map FsFile.path).filter (globMatch gpre))

/-- Bounding box in geographic degrees, as handed to `GFS`. -/
structure BBox where
  xmin : ℚ
  xmax : ℚ
  ymin : ℚ
  ymax : ℚ
deriving DecidableEq

/-- Replace the `xmin` bound of a box, keeping the other three bounds. -/
def setXmin (b : BBox) (x : ℚ) : BBox := ⟨x, b.xmax, b.ymin, b.ymax⟩

/-- `x + 360 if x < 0 else x`, the longitude normalization applied to each
bound in `modified_latlon`. -/
def normLon (x : ℚ) : ℚ := if x < 0 then x + 360 else x

/-- The padded band test `a - 1 <= v <= b + 1` used by the two `np.where`
calls of `modified_latlon`. -/
def inBand (a b v : ℚ) : Bool := decide (a - 1 ≤ v) && decide (v ≤ b + 1)

/-- Indices of the coordinate vector entries inside the padded band: the
result of `np.where` on the native coordinate vector. -/
def matchIdxs (a b : ℚ) (vec : List ℚ) : List Nat :=
  (List.range vec.length).filter fun i => inBand a b (vec.getD i 0)

/-- `lon2[lon2 > 180] -= 360`: re-express a longitude value in
`(-180, 180]`. -/
def fix180 (v : ℚ) : ℚ := if 180 < v then v - 360 else v

/-- Result of `GFS.modified_latlon`: the meshgrid coordinate arrays
(`lon` is `nx_grid`, `lat` is `ny_grid`) and the four window indices. -/
structure LatLon where
  lon : List (List ℚ)
  lat : List (List ℚ)
  idx_ymin : Nat
  idx_ymax : Nat
  idx_xmin : Nat
  idx_xmax : Nat
deriving DecidableEq

/-- `GFS.modified_latlon` on the native coordinate vectors of the first
grib file.  `none` models the `IndexError` raised by `lat_idxs[0]` /
`lon_idxs[0]` when a match set is empty.  The latitude slice is reversed
before the meshgrid (`lat2[::-1]`), and longitudes above 180 are shifted
down by 360 (`lon2[idxs] -= 360`). -/
def modified_latlon (bbox : BBox) (lonv latv : List ℚ) : Option LatLon :=
  let lonIdxs := matchIdxs (normLon bbox.xmin) (normLon bbox.xmax) lonv
  let latIdxs := matchIdxs bbox.ymin bbox.ymax latv
  match lonIdxs.head?, lonIdxs.getLast?, latIdxs.head?, latIdxs.getLast? with
  | some ix0, some ix1, some iy0, some iy1 =>
    let lon2 := (lonIdxs.map fun i => lonv.getD i 0).map fix180
    let lat2 := latIdxs.map fun i => latv.getD i 0
    some ⟨lat2.reverse.map fun _ => lon2,
          lat2.reverse.map fun v => lon2.map fun _ => v,
          iy0, iy1, ix0, ix1⟩
  | _, _, _, _ => none

/-- One retrieved grib file: its native coordinate vectors and the eight
decodable fields.  A field is `none` when the decoder would raise for the
corresponding selection filter. -/
structure GribFile where
  lonv : List ℚ
  latv : List ℚ
  sh2 : Option (List (List ℚ))
  t2m : Option (List (List ℚ))
  u10 : Option (List (List ℚ))
  v10 : Option (List (List ℚ))
  prmsl : Option (List (List ℚ))
  prate : Option (List (List ℚ))
  dlwrf : Option (List (List ℚ))
  dswrf : Option (List (List ℚ))
deriving DecidableEq

/-- The eight windowed per-hour slices extracted from one file. -/
structure FileFields where
  sh2 : List (List ℚ)
  t2m : List (List ℚ)
  u10 : List (List ℚ)
  v10 : List (List ℚ)
  prmsl : List (List ℚ)
  prate : List (List ℚ)
  dlwrf : List (List ℚ)
  dswrf : List (List ℚ)
deriving DecidableEq

/-- `ds[key2][idx_ymin:idx_ymax+1, idx_xmin:idx_xmax+1][::-1, :]`: window
a field to the grid window, then reverse the rows. -/
def windowField (iy0 iy1 ix0 ix1 : Nat) (g : List (List ℚ)) : List (List ℚ) :=
  (((g.drop iy0).take (iy1 + 1 - iy0)).map fun row =>
    (row.drop ix0).take (ix1 + 1 - ix0)).reverse

/-- Events recorded while `gen_sflux` runs: one decoder invocation
(`xr.open_dataset`) per file and variable, and the final `to_netcdf`. -/
inductive Ev where
  | openDs : Nat → String → Ev
  | write : Ev
deriving DecidableEq

/-- One decoder invocation inside the per-file loop of `gen_sflux`: emit
the open event; on decoder failure the day's job aborts, otherwise the
windowed and row-reversed slice is passed on. -/
def decodeStep (i : Nat) (nm : String) (og : Option (List (List ℚ))) (w : LatLon)
    (k : List (List ℚ) → List Ev × Option FileFields) : List Ev × Option FileFields :=
  match og with
  | none => ([Ev.openDs i nm], none)
  | some g =>
    let p := k (windowField w.idx_ymin w.idx_ymax w.idx_xmin w.idx_xmax g)
    (Ev.openDs i nm :: p.1, p.2)

/-- The body of the per-file loop of `gen_sflux`: the four filter groups in
source order (group1: sh2, t2m, u10, v10; group2: prmsl; group3: prate;
group4: dlwrf, dswrf). -/
def extractFile (w : LatLon) (i : Nat) (f : GribFile) : List Ev × Option FileFields :=
  decodeStep i "sh2" f.sh2 w fun a =>
  decodeStep i "t2m" f.t2m w fun b =>
  decodeStep i "u10" f.u10 w fun c =>
  decodeStep i "v10" f.v10 w fun d =>
  decodeStep i "prmsl" f.prmsl w fun e =>
  decodeStep i "prate" f.prate w fun p1 =>
  decodeStep i "dlwrf" f.dlwrf w fun p2 =>
  decodeStep i "dswrf" f.dswrf w fun p3 =>
  ([], some ⟨a, b, c, d, e, p1, p2, p3⟩)

/-- The outer `for ifile, file in enumerate(grbfiles)` loop: extract every
file in forecast-hour order, aborting at the first decoder failure. -/
def extractFiles (w : LatLon) (i : Nat) (files : List GribFile) :
    List Ev × Option (List FileFields) :=
  match files with
  | [] => ([], some [])
  | f :: rest =>
    let p := extractFile w i f
    match p.2 with
    | none => (p.1, none)
    | some ff =>
      let q := extractFiles w (i + 1) rest
      (p.1 ++ q.1, q.2.map fun l => ff :: l)

/-- `np.round(x, 4)` on the tie-free inputs produced by the time
coordinate (no value of `h/24 * 10^4` is a half-integer, so the bankers
rounding of numpy agrees with ordinary rounding there). -/
def round4 (q : ℚ) : ℚ := (round (q * 10000) : ℤ) / 10000

/-- The 1-D time coordinate `np.round(np.arange(1, n+1)/24, 4)`:
fractional days since cycle start. -/
def timeCoord (n : Nat) : List ℚ :=
  (List.range n).map fun h : Nat => round4 (((h : ℚ) + 1) / 24)

/-- The per-variable attribute table attached by `gen_sflux` (source lines
216-259), including the swapped long names of `dlwrf` and `dswrf`. -/
def varAttrs : List (String × List (String × String)) :=
  [("uwind", [("units", "m/s"), ("long_name", "10m_above_ground/UGRD"),
     ("standard_name", "eastward_wind")]),
   ("vwind", [("units", "m/s"), ("long_name", "10m_above_ground/VGRD"),
     ("standard_name", "northward_wind")]),
   ("spfh", [("units", "kg kg-1"), ("long_name", "2m_above_ground/Specific Humidity"),
     ("standard_name", "specific_humidity")]),
   ("prmsl", [("units", "Pa"), ("long_name", "Pressure reduced to MSL"),
     ("standard_name", "air_pressure_at_sea_level")]),
   ("stmp", [("units", "K"), ("long_name", "2m_above_ground/Temperature")]),
   ("prate", [("units", "kg m-2 s-1"), ("long_name", "Precipitation rate")]),
   ("dlwrf", [("units", "W m-2"), ("long_name", "Downward short-wave radiation flux")]),
   ("dswrf", [("units", "W m-2"), ("long_name", "Downward long-wave radiation flux")])]

/-- The daily output dataset assembled by `gen_sflux`: eight 3-D variable
arrays, the 1-D time coordinate, the 2-D coordinate grids and the
attribute table. -/
structure Sflux where
  stmp : List (List (List ℚ))
  spfh : List (List (List ℚ))
  uwind : List (List (List ℚ))
  vwind : List (List (List ℚ))
  prmsl : List (List (List ℚ))
  prate : List (List (List ℚ))
  dlwrf : List (List (List ℚ))
  dswrf : List (List (List ℚ))
  time : List ℚ
  lon : List (List ℚ)
  lat : List (List ℚ)
  attrs : List (String × List (String × String))
deriving DecidableEq

/-- `GFS.gen_sflux` for one day, given the retrieved files in
forecast-hour order: compute the grid window from the first file, extract
every field of every file, assemble the dataset and, last of all, write
it.  The first projection is the event trace, the second the dataset
(`none` when the day's job fails before the write). -/
def gen_sflux (bbox : BBox) (files : List GribFile) : List Ev × Option Sflux :=
  match files with
  | [] => ([], none)
  | f0 :: _ =>
    match modified_latlon bbox f0.lonv f0.latv with
    | none => ([Ev.openDs 0 "coords"], none)
    | some w =>
      let p := extractFiles w 0 files
      match p.2 with
      | none => (Ev.openDs 0 "coords" :: p.1, none)
      | some ffs =>
        (Ev.openDs 0 "coords" :: p.1 ++ [Ev.write],
         some ⟨ffs.map FileFields.t2m, ffs.map FileFields.sh2,
               ffs.map FileFields.u10, ffs.map FileFields.v10,
               ffs.map FileFields.prmsl, ffs.map FileFields.prate,
               ffs.map FileFields.dlwrf, ffs.map FileFields.dswrf,
               timeCoord files.length, w.lon, w.lat, varAttrs⟩)

/-- The eight windowed slices of one file, when every decode succeeds:
what `extractFile` returns on a fully decodable file. -/
def extractPure (w : LatLon) (f : GribFile) : FileFields :=
  ⟨windowField w.idx_ymin w.idx_ymax w.idx_xmin w.idx_xmax (f.sh2.getD []),
   windowField w.idx_ymin w.idx_ymax w.idx_xmin w.idx_xmax (f.t2m.getD []),
   windowField w.idx_ymin w.idx_ymax w.idx_xmin w.idx_xmax (f.u10.getD []),
   windowField w.idx_ymin w.idx_ymax w.idx_xmin w.idx_xmax (f.v10.getD []),
   windowField w.idx_ymin w.idx_ymax w.idx_xmin w.idx_xmax (f.prmsl.getD []),
   windowField w.idx_ymin w.idx_ymax w.idx_xmin w.idx_xmax (f.prate.getD []),
   windowField w.idx_ymin w.idx_ymax w.idx_xmin w.idx_xmax (f.dlwrf.getD []),
   windowField w.idx_ymin w.idx_ymax w.idx_xmin w.idx_xmax (f.dswrf.getD [])⟩

/-- A decoded field is available and large enough to contain the grid
window: at least `ny` rows, each with at least `nx` entries. -/
def fieldOk (ny nx : Nat) (og : Option (List (List ℚ))) : Bool :=
  match og with
  | none => false
  | some g => decide (ny ≤ g.length) && g.all fun row => decide (nx ≤ row.length)

/-- All eight fields of a file are available and contain the window. -/
def fileOk (ny nx : Nat) (f : GribFile) : Bool :=
  fieldOk ny nx f.sh2 && fieldOk ny nx f.t2m && fieldOk ny nx f.u10 &&
    fieldOk ny nx f.v10 && fieldOk ny nx f.prmsl && fieldOk ny nx f.prate &&
    fieldOk ny nx f.dlwrf && fieldOk ny nx f.dswrf

/-- A 3-D array has shape `(H, ny, nx)`. -/
def shape3 (H ny nx : Nat) (a : List (List (List ℚ))) : Prop :=
  a.length = H ∧ ∀ m ∈ a, m.length = ny ∧ ∀ row ∈ m, row.length = nx

/-- A variable's 3-D array is, hour by hour in forecast-hour order, the
windowed and row-reversed slice of the corresponding decoded field. -/
def seriesOf (fs : List GribFile) (sel : GribFile → Option (List (List ℚ)))
    (w : LatLon) (ser : List (List (List ℚ))) : Prop :=
  ∀ i : Nat, ser[i]? = ((fs[i]?).bind sel).map
    (windowField w.idx_ymin w.idx_ymax w.idx_xmin w.idx_xmax)

/-- A concrete remote listing: three valid per-hour keys (out of order),
an analysis file, an index sidecar, a goessim variant and a non-0p25
product. -/
def keysEx : List String :=
  ["gfs.20230101/00/atmos/gfs.t00z.pgrb2.0p25.f002",
   "gfs.20230101/00/atmos/gfs.t00z.pgrb2.0p25.f000",
   "gfs.20230101/00/atmos/gfs.t00z.pgrb2.0p25.f001",
   "gfs.20230101/00/atmos/gfs.t00z.pgrb2.0p25.anl",
   "gfs.20230101/00/atmos/gfs.t00z.pgrb2.0p25.f001.idx",
   "gfs.20230101/00/atmos/gfs.t00z.goessimpgrb2.0p25.f003",
   "gfs.20230101/00/atmos/gfs.t00z.sfluxgrbf001.grib2"]

/-- Concrete native longitude vector (degrees east, native 0..360). -/
def lonvEx : List ℚ := [262, 263, 264]

/-- Concrete native latitude vector, descending as in the native grid. -/
def latvEx : List ℚ := [30, 29, 28]

/-- A concrete 3x3 decoded field. -/
def gEx : List (List ℚ) := [[1, 2, 3], [4, 5, 6], [7, 8, 9]]

/-- A concrete grib file on which every decode succeeds. -/
def fEx : GribFile :=
  ⟨lonvEx, latvEx, some gEx, some gEx, some gEx, some gEx, some gEx, some gEx,
   some gEx, some gEx⟩

/-- A concrete grib file whose `prate` decode fails. -/
def fBadEx : GribFile :=
  ⟨lonvEx, latvEx, some gEx, some gEx, some gEx, some gEx, some gEx, none,
   some gEx, some gEx⟩

/-- A concrete bounding box with a negative western bound. -/
def bbEx : BBox := ⟨-97, -96, 28, 30⟩

/-- A two-hour day of retrieved files. -/
def filesEx : List GribFile := [fEx, fEx]

/-- `gEx` windowed to the full 3x3 window and row-reversed. -/
def wgEx : List (List ℚ) := [[7, 8, 9], [4, 5, 6], [1, 2, 3]]

/-- The eight windowed slices extracted from `fEx`. -/
def ffEx : FileFields := ⟨wgEx, wgEx, wgEx, wgEx, wgEx, wgEx, wgEx, wgEx⟩

/-- The grid window `gen_sflux` computes for `bbEx` over
`lonvEx`/`latvEx`. -/
def wEx : LatLon :=
  ⟨[[-98, -97, -96], [-98, -97, -96], [-98, -97, -96]],
   [[28, 28, 28], [29, 29, 29], [30, 30, 30]], 0, 2, 0, 2⟩

/-- The dataset `gen_sflux` produces for `bbEx` and `filesEx`. -/
def dsEx : Sflux :=
  ⟨[wgEx, wgEx], [wgEx, wgEx], [wgEx, wgEx], [wgEx, wgEx], [wgEx, wgEx],
   [wgEx, wgEx], [wgEx, wgEx], [wgEx, wgEx], [417/10000, 833/10000],
   [[-98, -97, -96], [-98, -97, -96], [-98, -97, -96]],
   [[28, 28, 28], [29, 29, 29], [30, 30, 30]], varAttrs⟩

/-- Three selected per-hour keys of the canonical naming pattern. -/
def keysDl : List String :=
  ["gfs.20230101/00/atmos/gfs.t00z.pgrb2.0p25.f001",
   "gfs.20230101/00/atmos/gfs.t00z.pgrb2.0p25.f002",
   "gfs.20230101/00/atmos/gfs.t00z.pgrb2.0p25.f003",
   "gfs.20230101/00/atmos/gfs.t00z.pgrb2.0p25.f004"]

/-- A download oracle under which exactly the hour-2 transfer raises. -/
def okEx (k : String) : Bool :=
  k != "gfs.20230101/00/atmos/gfs.t00z.pgrb2.0p25.f002"

/-- The glob prefix for cycle 2023-01-01 00Z, product `atmos`. -/
def gpEx : String := globPre "20230101" 0 "atmos"

theorem lexLe_total : ∀ a b : List Char, lexLe a b = true ∨ lexLe b a = true
  | [], _ => Or.inl rfl
  | _ :: _, [] => Or.inr rfl
  | a :: as, b :: bs => by
    by_cases h1 : a.toNat < b.toNat
    · exact Or.inl (by simp [lexLe, h1])
    · by_cases h2 : b.toNat < a.toNat
      · exact Or.inr (by simp [lexLe, h2])
      · rcases lexLe_total as bs with h | h
        · exact Or.inl (by simp [lexLe, h1, h2, h])
        · exact Or.inr (by simp [lexLe, h1, h2, h])

theorem lexLe_trans : ∀ a b c : List Char,
    lexLe a b = true → lexLe b c = true → lexLe a c = true
  | [], _, _, _, _ => rfl
  | _ :: _, [], _, hab, _ => by simp [lexLe] at hab
  | _ :: _, _ :: _, [], _, hbc => by simp [lexLe] at hbc
  | a :: as, b :: bs, c :: cs, hab, hbc => by
    simp only [lexLe] at hab hbc ⊢
    rcases Nat.lt_trichotomy a.toNat b.toNat with h1 | h1 | h1 <;>
      rcases Nat.lt_trichotomy b.toNat c.toNat with h2 | h2 | h2
    · rw [if_pos (by omega)]
    · rw [if_pos (by omega)]
    · rw [if_neg (by omega : ¬b.toNat < c.toNat), if_pos h2] at hbc
      simp at hbc
    · rw [if_pos (by omega)]
    · rw [if_neg (by omega : ¬a.toNat < b.toNat),
        if_neg (by omega : ¬b.toNat < a.toNat)] at hab
      rw [if_neg (by omega : ¬b.toNat < c.toNat),
        if_neg (by omega : ¬c.toNat < b.toNat)] at hbc
      rw [if_neg (by omega : ¬a.toNat < c.toNat),
        if_neg (by omega : ¬c.toNat < a.toNat)]
      exact lexLe_trans as bs cs hab hbc
    · rw [if_neg (by omega : ¬b.toNat < c.toNat), if_pos h2] at hbc
      simp at hbc
    · rw [if_neg (by omega : ¬a.toNat < b.toNat), if_pos h1] at hab
      simp at hab
    · rw [if_neg (by omega : ¬a.toNat < b.toNat), if_pos h1] at hab
      simp at hab
    · rw [if_neg (by omega : ¬a.toNat < b.toNat), if_pos h1] at hab
      simp at hab

/-- C3: the retained key set is exactly the keys containing both `0p25`
and `pgrb2` and none of `goessim`, `anl`, `idx`, arranged in lexically
ascending order. -/
theorem claim_C3_filter_sorted (keys : List String) (k : String) :
    (k ∈ file_metadata keys ↔ k ∈ keys ∧
      (isSubOf "0p25".data k.data = true ∧ isSubOf "pgrb2".data k.data = true ∧
       isSubOf "goessim".data k.data = false ∧ isSubOf "anl".data k.data = false ∧
       isSubOf "idx".data k.data = false)) ∧
    (file_metadata keys).Pairwise fun a b => lexLe a.data b.data = true := by
  constructor
  · rw [file_metadata, (List.perm_insertionSort _ _).mem_iff, List.mem_filter, validKey]
    simp [Bool.and_eq_true, Bool.not_eq_true', and_assoc]
  · haveI : IsTotal String fun a b : String => lexLe a.data b.data = true :=
      ⟨fun a b => lexLe_total a.data b.data⟩
    haveI : IsTrans String fun a b : String => lexLe a.data b.data = true :=
      ⟨fun a b c => lexLe_trans a.data b.data c.data⟩
    exact List.sorted_insertionSort _ _

/-- C2: from a sorted filtered listing of `N + 1` valid keys, the download
slice skips the first entry (forecast hour 0) and takes the next
`min N (record * 24)` entries, so entry `i` of the slice is entry `i + 1`
of the listing. -/
theorem claim_C2_selected_slice (keys : List String) (record N : Nat)
    (hlen : (file_metadata keys).length = N + 1) :
    (selectedKeys keys record).length = min N (record * 24) ∧
    ∀ i : Nat, i < min N (record * 24) →
      (selectedKeys keys record)[i]? = (file_metadata keys)[i + 1]? := by
  constructor
  · rw [selectedKeys, List.length_take, List.length_drop, hlen]
    omega
  · intro i hi
    rw [selectedKeys, List.getElem?_take, if_pos (by omega), List.getElem?_drop,
      Nat.add_comm]

theorem keysEx_len : (file_metadata keysEx).length = 2 + 1 := by decide

/-- Witness for C2: three valid keys, `record = 1`; the slice has the two
entries at listing positions 1 and 2. -/
theorem claim_C2_selected_slice_witness :
    (file_metadata keysEx).length = 2 + 1 ∧
    ((selectedKeys keysEx 1).length = min 2 (1 * 24) ∧
     ∀ i : Nat, i < min 2 (1 * 24) →
       (selectedKeys keysEx 1)[i]? = (file_metadata keysEx)[i + 1]?) :=
  ⟨keysEx_len, claim_C2_selected_slice keysEx 1 2 keysEx_len⟩

theorem modified_latlon_ex : modified_latlon bbEx lonvEx latvEx = some wEx := by
  with_unfolding_all decide

theorem windowField_ex : windowField 0 2 0 2 gEx = wgEx := by
  with_unfolding_all decide

theorem timeCoord_ex : timeCoord 2 = [417/10000, 833/10000] := by
  norm_num [timeCoord, List.range_succ, round4, round_eq]

theorem extractFile_ex_snd (i : Nat) : (extractFile wEx i fEx).2 = some ffEx := by
  simp [extractFile, decodeStep, fEx, wEx, windowField_ex, ffEx]

theorem extractFile_bad_snd (i : Nat) : (extractFile wEx i fBadEx).2 = none := by
  simp [extractFile, decodeStep, fBadEx, wEx, windowField_ex]

theorem extractFiles_ex : (extractFiles wEx 0 filesEx).2 = some [ffEx, ffEx] := by
  simp [filesEx, extractFiles, extractFile_ex_snd 0, extractFile_ex_snd 1]

theorem extractFiles_fail_ex : (extractFiles wEx 0 [fEx, fBadEx]).2 = none := by
  simp [extractFiles, extractFile_ex_snd 0, extractFile_bad_snd 1]

theorem gen_sflux_snd (bbox : BBox) (f0 : GribFile) (rest : List GribFile)
    (w : LatLon) (ffs : List FileFields)
    (hw : modified_latlon bbox f0.lonv f0.latv = some w)
    (hp : (extractFiles w 0 (f0 :: rest)).2 = some ffs) :
    (gen_sflux bbox (f0 :: rest)).2 =
      some ⟨ffs.map FileFields.t2m, ffs.map FileFields.sh2, ffs.map FileFields.u10,
            ffs.map FileFields.v10, ffs.map FileFields.prmsl, ffs.map FileFields.prate,
            ffs.map FileFields.dlwrf, ffs.map FileFields.dswrf,
            timeCoord (f0 :: rest).length, w.lon, w.lat, varAttrs⟩ := by
  simp [gen_sflux, hw, hp]

theorem gen_sflux_ex : (gen_sflux bbEx filesEx).2 = some dsEx := by
  have hw : modified_latlon bbEx fEx.lonv fEx.latv = some wEx := modified_latlon_ex
  have h2 := gen_sflux_snd bbEx fEx [fEx] wEx [ffEx, ffEx] hw extractFiles_ex
  rw [show filesEx = fEx :: [fEx] from rfl, h2]
  simp [dsEx, ffEx, wEx, timeCoord_ex]

theorem gen_sflux_fail_ex : (gen_sflux bbEx [fEx, fBadEx]).2 = none := by
  have hw : modified_latlon bbEx fEx.lonv fEx.latv = some wEx := modified_latlon_ex
  simp [gen_sflux, hw, extractFiles_fail_ex]

theorem decodeStep_no_write (i : Nat) (nm : String) (og : Option (List (List ℚ)))
    (w : LatLon) (k : List (List ℚ) → List Ev × Option FileFields)
    (hk : ∀ g, Ev.write ∉ (k g).1) : Ev.write ∉ (decodeStep i nm og w k).1 := by
  cases og with
  | none => simp [decodeStep]
  | some g =>
    simp only [decodeStep, List.mem_cons, not_or]
    exact ⟨by simp, hk _⟩

theorem extractFile_no_write (w : LatLon) (i : Nat) (f : GribFile) :
    Ev.write ∉ (extractFile w i f).1 := by
  unfold extractFile
  apply decodeStep_no_write; intro a
  apply decodeStep_no_write; intro b
  apply decodeStep_no_write; intro c
  apply decodeStep_no_write; intro d
  apply decodeStep_no_write; intro e
  apply decodeStep_no_write; intro p1
  apply decodeStep_no_write; intro p2
  apply decodeStep_no_write; intro p3
  simp

theorem extractFiles_no_write (w : LatLon) (i : Nat) (files : List GribFile) :
    Ev.write ∉ (extractFiles w i files).1 := by
  induction files generalizing i with
  | nil => simp [extractFiles]
  | cons f rest ih =>
    simp only [extractFiles]
    cases hp : (extractFile w i f).2 with
    | none => simpa [hp] using extractFile_no_write w i f
    | some ff =>
      simp only [hp, List.mem_append, not_or]
      exact ⟨extractFile_no_write w i f, ih (i + 1)⟩

/-- C8: whenever the day's job fails — empty file list, window
computation failure, or any decoder failure during extraction — the event
trace of `gen_sflux` contains no write: no partial output file is ever
produced, because the write is the final step after full assembly. -/
theorem claim_C8_no_partial_write (bbox : BBox) (files : List GribFile)
    (hfail : (gen_sflux bbox files).2 = none) :
    Ev.write ∉ (gen_sflux bbox files).1 := by
  cases files with
  | nil => simp [gen_sflux]
  | cons f0 rest =>
    cases hw : modified_latlon bbox f0.lonv f0.latv with
    | none => simp [gen_sflux, hw]
    | some w =>
      cases hp : (extractFiles w 0 (f0 :: rest)).2 with
      | none =>
        simp only [gen_sflux, hw, hp, List.mem_cons, not_or]
        exact ⟨by simp, extractFiles_no_write w 0 (f0 :: rest)⟩
      | some ffs =>
        exfalso
        simp [gen_sflux, hw, hp] at hfail

/-- Witness for C8: a day whose second file fails to decode `prate`;
the run fails and its trace contains no write. -/
theorem claim_C8_no_partial_write_witness :
    (gen_sflux bbEx [fEx, fBadEx]).2 = none ∧
    Ev.write ∉ (gen_sflux bbEx [fEx, fBadEx]).1 :=
  ⟨gen_sflux_fail_ex, claim_C8_no_partial_write bbEx [fEx, fBadEx] gen_sflux_fail_ex⟩

theorem gen_sflux_attrs_eq (bbox : BBox) (files : List GribFile) (ds : Sflux)
    (h : (gen_sflux bbox files).2 = some ds) : ds.attrs = varAttrs := by
  cases files with
  | nil => simp [gen_sflux] at h
  | cons f0 rest =>
    cases hw : modified_latlon bbox f0.lonv f0.latv with
    | none => simp [gen_sflux, hw] at h
    | some w =>
      cases hp : (extractFiles w 0 (f0 :: rest)).2 with
      | none => simp [gen_sflux, hw, hp] at h
      | some ffs =>
        simp only [gen_sflux, hw, hp] at h
        injection h with h
        subst h
        rfl

/-- C6: every dataset written by `gen_sflux` carries exactly the source's
per-variable attribute table: uwind/vwind in m/s with
eastward_wind/northward_wind, spfh in kg kg-1, prmsl in Pa, stmp in K,
prate in kg m-2 s-1, dlwrf and dswrf in W m-2 with no standard_name, and
the dlwrf/dswrf long names carrying the swapped short-wave/long-wave
labels verbatim. -/
theorem claim_C6_attribute_table (bbox : BBox) (files : List GribFile) (ds : Sflux)
    (h : (gen_sflux bbox files).2 = some ds) :
    ds.attrs =
      [("uwind", [("units", "m/s"), ("long_name", "10m_above_ground/UGRD"),
         ("standard_name", "eastward_wind")]),
       ("vwind", [("units", "m/s"), ("long_name", "10m_above_ground/VGRD"),
         ("standard_name", "northward_wind")]),
       ("spfh", [("units", "kg kg-1"), ("long_name", "2m_above_ground/Specific Humidity"),
         ("standard_name", "specific_humidity")]),
       ("prmsl", [("units", "Pa"), ("long_name", "Pressure reduced to MSL"),
         ("standard_name", "air_pressure_at_sea_level")]),
       ("stmp", [("units", "K"), ("long_name", "2m_above_ground/Temperature")]),
       ("prate", [("units", "kg m-2 s-1"), ("long_name", "Precipitation rate")]),
       ("dlwrf", [("units", "W m-2"), ("long_name", "Downward short-wave radiation flux")]),
       ("dswrf", [("units", "W m-2"), ("long_name", "Downward long-wave radiation flux")])] :=
  gen_sflux_attrs_eq bbox files ds h

/-- Witness for C6: the concrete two-hour run produces a dataset whose
attribute table is the table above. -/
theorem claim_C6_attribute_table_witness :
    (gen_sflux bbEx filesEx).2 = some dsEx ∧
    dsEx.attrs =
      [("uwind", [("units", "m/s"), ("long_name", "10m_above_ground/UGRD"),
         ("standard_name", "eastward_wind")]),
       ("vwind", [("units", "m/s"), ("long_name", "10m_above_ground/VGRD"),
         ("standard_name", "northward_wind")]),
       ("spfh", [("units", "kg kg-1"), ("long_name", "2m_above_ground/Specific Humidity"),
         ("standard_name", "specific_humidity")]),
       ("prmsl", [("units", "Pa"), ("long_name", "Pressure reduced to MSL"),
         ("standard_name", "air_pressure_at_sea_level")]),
       ("stmp", [("units", "K"), ("long_name", "2m_above_ground/Temperature")]),
       ("prate", [("units", "kg m-2 s-1"), ("long_name", "Precipitation rate")]),
       ("dlwrf", [("units", "W m-2"), ("long_name", "Downward short-wave radiation flux")]),
       ("dswrf", [("units", "W m-2"), ("long_name", "Downward long-wave radiation flux")])] :=
  ⟨gen_sflux_ex, claim_C6_attribute_table bbEx filesEx dsEx gen_sflux_ex⟩

theorem matchIdxs_mem (a b : ℚ) (vec : List ℚ) (i : Nat) :
    i ∈ matchIdxs a b vec ↔ i < vec.length ∧ inBand a b (vec.getD i 0) = true := by
  simp [matchIdxs, List.mem_filter, List.mem_range]

theorem matchIdxs_ne_nil_iff (a b : ℚ) (vec : List ℚ) :
    matchIdxs a b vec ≠ [] ↔ ∃ v ∈ vec, inBand a b v = true := by
  constructor
  · intro h
    obtain ⟨i, hi⟩ := List.exists_mem_of_ne_nil _ h
    rw [matchIdxs_mem] at hi
    exact ⟨vec.getD i 0, by rw [List.getD_eq_getElem vec 0 hi.1]; exact List.getElem_mem hi.1,
      hi.2⟩
  · rintro ⟨v, hv, hband⟩ hnil
    obtain ⟨i, hilt, hgv⟩ := List.mem_iff_getElem.mp hv
    have : i ∈ matchIdxs a b vec := by
      rw [matchIdxs_mem]
      refine ⟨hilt, ?_⟩
      rw [List.getD_eq_getElem vec 0 hilt, hgv]
      exact hband
    rw [hnil] at this
    exact List.not_mem_nil i this

/-- C10: `modified_latlon` succeeds exactly when, after the +360
normalization of each negative bound, some native longitude lies in
`[xmin - 1, xmax + 1]` and some native latitude lies in
`[ymin - 1, ymax + 1]`; when either padded band is empty (for example a
box straddling 0 degrees whose normalization gives xmin > xmax), taking
the first matching index fails. -/
theorem claim_C10_window_success_iff (bbox : BBox) (lonv latv : List ℚ) :
    (modified_latlon bbox lonv latv).isSome = true ↔
      ((∃ v ∈ lonv, inBand (normLon bbox.xmin) (normLon bbox.xmax) v = true) ∧
       (∃ v ∈ latv, inBand bbox.ymin bbox.ymax v = true)) := by
  rw [← matchIdxs_ne_nil_iff, ← matchIdxs_ne_nil_iff]
  unfold modified_latlon
  rcases hlon : matchIdxs (normLon bbox.xmin) (normLon bbox.xmax) lonv with _ | ⟨x, xs⟩ <;>
    rcases hlat : matchIdxs bbox.ymin bbox.ymax latv with _ | ⟨y, ys⟩ <;>
      simp only [hlon, hlat]
  · simp
  · simp
  · simp
  · obtain ⟨ix1, hix1⟩ := Option.isSome_iff_exists.mp
      (List.getLast?_isSome.mpr (List.cons_ne_nil x xs))
    obtain ⟨iy1, hiy1⟩ := Option.isSome_iff_exists.mp
      (List.getLast?_isSome.mpr (List.cons_ne_nil y ys))
    simp [hix1, hiy1]

theorem modified_latlon_inv (bbox : BBox) (lonv latv : List ℚ) (r : LatLon)
    (h : modified_latlon bbox lonv latv = some r) :
    (matchIdxs (normLon bbox.xmin) (normLon bbox.xmax) lonv).head? = some r.idx_xmin ∧
    (matchIdxs (normLon bbox.xmin) (normLon bbox.xmax) lonv).getLast? = some r.idx_xmax ∧
    (matchIdxs bbox.ymin bbox.ymax latv).head? = some r.idx_ymin ∧
    (matchIdxs bbox.ymin bbox.ymax latv).getLast? = some r.idx_ymax ∧
    r.lon = ((matchIdxs bbox.ymin bbox.ymax latv).map fun i => latv.getD i 0).reverse.map
      (fun _ => ((matchIdxs (normLon bbox.xmin) (normLon bbox.xmax) lonv).map fun i =>
        lonv.getD i 0).map fix180) ∧
    r.lat = ((matchIdxs bbox.ymin bbox.ymax latv).map fun i => latv.getD i 0).reverse.map
      (fun v => (((matchIdxs (normLon bbox.xmin) (normLon bbox.xmax) lonv).map fun i =>
        lonv.getD i 0).map fix180).map fun _ => v) := by
  simp only [modified_latlon] at h
  split at h
  · injection h with h
    subst h
    simp_all
  · exact absurd h (by simp)

theorem modified_latlon_congr (b1 b2 : BBox) (lonv latv : List ℚ)
    (hx : normLon b1.xmin = normLon b2.xmin) (hx2 : normLon b1.xmax = normLon b2.xmax)
    (hy : b1.ymin = b2.ymin) (hy2 : b1.ymax = b2.ymax) :
    modified_latlon b1 lonv latv = modified_latlon b2 lonv latv := by
  unfold modified_latlon
  rw [hx, hx2, hy, hy2]

/-- C5: every longitude value of the coordinate grid lies in (-180, 180]
(the native grid supplies longitudes in [0, 360)), and a bounding box
with negative xmin gives exactly the same window — indices and grids —
as the box with xmin + 360, because negative bounds are normalized by
adding 360 before index selection. -/
theorem claim_C5_lon_reexpression (bbox : BBox) (lonv latv : List ℚ)
    (hlon : ∀ v ∈ lonv, 0 ≤ v ∧ v < 360) :
    (∀ r, modified_latlon bbox lonv latv = some r →
      ∀ row ∈ r.lon, ∀ v ∈ row, -180 < v ∧ v ≤ 180) ∧
    (bbox.xmin < 0 → 0 ≤ bbox.xmin + 360 →
      modified_latlon bbox lonv latv =
        modified_latlon (setXmin bbox (bbox.xmin + 360)) lonv latv) := by
  constructor
  · intro r hr row hrow v hv
    obtain ⟨-, -, -, -, hlonGrid, -⟩ := modified_latlon_inv bbox lonv latv r hr
    rw [hlonGrid] at hrow
    obtain ⟨-, -, hrow⟩ := List.mem_map.mp hrow
    subst hrow
    obtain ⟨u, hu, huv⟩ := List.mem_map.mp hv
    obtain ⟨i, hi, hiu⟩ := List.mem_map.mp hu
    rw [matchIdxs_mem] at hi
    have humem : u ∈ lonv := by
      rw [← hiu, List.getD_eq_getElem lonv 0 hi.1]
      exact List.getElem_mem hi.1
    obtain ⟨hu0, hu360⟩ := hlon u humem
    subst huv
    unfold fix180
    split <;> constructor <;> linarith
  · intro hneg hpos
    refine modified_latlon_congr _ _ _ _ ?_ rfl rfl rfl
    show normLon bbox.xmin = normLon (bbox.xmin + 360)
    rw [normLon, normLon, if_pos hneg, if_neg (not_lt.mpr hpos)]

theorem lonvEx_range : ∀ v ∈ lonvEx, (0:ℚ) ≤ v ∧ v < 360 := by
  with_unfolding_all decide

/-- Witness for C5 on the concrete native vectors and box. -/
theorem claim_C5_lon_reexpression_witness :
    (∀ v ∈ lonvEx, (0:ℚ) ≤ v ∧ v < 360) ∧
    ((∀ r, modified_latlon bbEx lonvEx latvEx = some r →
        ∀ row ∈ r.lon, ∀ v ∈ row, -180 < v ∧ v ≤ 180) ∧
     (bbEx.xmin < 0 → 0 ≤ bbEx.xmin + 360 →
       modified_latlon bbEx lonvEx latvEx =
         modified_latlon (setXmin bbEx (bbEx.xmin + 360)) lonvEx latvEx)) :=
  ⟨lonvEx_range, claim_C5_lon_reexpression bbEx lonvEx latvEx lonvEx_range⟩

theorem isLeadOf_append (p l l' : List Char) (h : isLeadOf p l = true) :
    isLeadOf p (l ++ l') = true := by
  induction p generalizing l with
  | nil => rfl
  | cons a as ih =>
    cases l with
    | nil => simp [isLeadOf] at h
    | cons b bs =>
      simp only [List.cons_append, isLeadOf, Bool.and_eq_true] at h ⊢
      exact ⟨h.1, ih bs h.2⟩

theorem isLeadOf_self_append (l l' : List Char) : isLeadOf l (l ++ l') = true := by
  induction l with
  | nil => rfl
  | cons a as ih => simp [isLeadOf, ih]

theorem globMatch_key (gp k : String) (h : isLeadOf gp.data k.data = true) :
    globMatch gp (k ++ ".grib2") = true := by
  rw [globMatch, Bool.and_eq_true]
  constructor
  · rw [String.data_append]
    exact isLeadOf_append _ _ _ h
  · rw [String.data_append, List.reverse_append]
    exact isLeadOf_self_append _ _

theorem invFiles_downloadKeys (gp : String) (keys : List String) (ok : String → Bool)
    (hkeys : ∀ k ∈ keys, isLeadOf gp.data k.data = true) :
    (invFiles gp (downloadKeys keys ok)).length = keys.length ∧
    ∀ k ∈ keys, (k ++ ".grib2") ∈ invFiles gp (downloadKeys keys ok) := by
  have hpaths : (downloadKeys keys ok).map FsFile.path = keys.map (· ++ ".grib2") := by
    simp [downloadKeys, List.map_map, Function.comp]
  have hfilter :
      ((downloadKeys keys ok).map FsFile.path).filter (globMatch gp) =
        keys.map (· ++ ".grib2") := by
    rw [hpaths, List.filter_eq_self]
    intro p hp
    obtain ⟨k, hk, rfl⟩ := List.mem_map.mp hp
    exact globMatch_key gp k (hkeys k hk)
  constructor
  · rw [invFiles, (List.perm_insertionSort _ _).length_eq, hfilter, List.length_map]
  · intro k hk
    rw [invFiles, (List.perm_insertionSort _ _).mem_iff, hfilter]
    exact List.mem_map_of_mem _ hk

/-- C9: the download loop opens each selected key's local `.grib2` path
before attempting the transfer, so a failed transfer still leaves a
(zero-byte) file that the glob matches: the files list has exactly one
entry per selected key, however many transfers fail, and every failed
key's file is present with empty content. -/
theorem claim_C9_files_length_invariant (dateStr : String) (cycle : Nat)
    (product : String) (keys : List String) (ok : String → Bool)
    (hkeys : ∀ k ∈ keys, isLeadOf (globPre dateStr cycle product).data k.data = true) :
    (invFiles (globPre dateStr cycle product) (downloadKeys keys ok)).length =
      keys.length ∧
    ∀ k ∈ keys, ok k = false →
      FsFile.mk (k ++ ".grib2") false ∈ downloadKeys keys ok ∧
      (k ++ ".grib2") ∈ invFiles (globPre dateStr cycle product) (downloadKeys keys ok) := by
  obtain ⟨hlen, hmem⟩ := invFiles_downloadKeys (globPre dateStr cycle product) keys ok hkeys
  refine ⟨hlen, fun k hk hfail => ⟨?_, hmem k hk⟩⟩
  rw [downloadKeys, List.mem_map]
  exact ⟨k, hk, by rw [hfail]⟩

theorem keysDl_canonical : ∀ k ∈ keysDl, isLeadOf gpEx.data k.data = true := by
  with_unfolding_all decide

/-- Witness for C9 on four concrete keys with the hour-2 transfer
failing. -/
theorem claim_C9_files_length_invariant_witness :
    (∀ k ∈ keysDl, isLeadOf (globPre "20230101" 0 "atmos").data k.data = true) ∧
    ((invFiles (globPre "20230101" 0 "atmos") (downloadKeys keysDl okEx)).length =
       keysDl.length ∧
     ∀ k ∈ keysDl, okEx k = false →
       FsFile.mk (k ++ ".grib2") false ∈ downloadKeys keysDl okEx ∧
       (k ++ ".grib2") ∈ invFiles (globPre "20230101" 0 "atmos") (downloadKeys keysDl okEx)) :=
  ⟨keysDl_canonical,
   claim_C9_files_length_invariant "20230101" 0 "atmos" keysDl okEx keysDl_canonical⟩

/-- C7 counterexample: four selected keys, the hour-2 transfer raises.
The claim says the failed hour's file is absent and the files list is one
entry short; in fact the files list still has all four entries — not
three — and still contains the failed hour's file, because the local file
was opened for writing before the transfer was attempted. -/
theorem claim_C7_counterexample :
    okEx "gfs.20230101/00/atmos/gfs.t00z.pgrb2.0p25.f002" = false ∧
    (invFiles gpEx (downloadKeys keysDl okEx)).length = 4 ∧
    ¬(invFiles gpEx (downloadKeys keysDl okEx)).length = 4 - 1 ∧
    ("gfs.20230101/00/atmos/gfs.t00z.pgrb2.0p25.f002" ++ ".grib2") ∈
      invFiles gpEx (downloadKeys keysDl okEx) := by
  with_unfolding_all decide

/-- C7 amended: a failed mid-sequence download is caught and logged and
the loop continues (modelled by `downloadKeys` being total over the
selected keys), but the failed hour's file is NOT absent from the files
list: it remains as a zero-byte `.grib2` file that the glob matches, so
the files list keeps the full selected length — and with it the day's
nominal time dimension — rather than shrinking by one. -/
theorem claim_C7_amended_failure_kept (dateStr : String) (cycle : Nat)
    (product : String) (keys : List String) (ok : String → Bool) (kbad : String)
    (hkeys : ∀ k ∈ keys, isLeadOf (globPre dateStr cycle product).data k.data = true)
    (hbad : kbad ∈ keys) (hfailed : ok kbad = false) :
    (invFiles (globPre dateStr cycle product) (downloadKeys keys ok)).length =
      keys.length ∧
    (kbad ++ ".grib2") ∈ invFiles (globPre dateStr cycle product) (downloadKeys keys ok) ∧
    FsFile.mk (kbad ++ ".grib2") false ∈ downloadKeys keys ok := by
  obtain ⟨hlen, hmem⟩ := invFiles_downloadKeys (globPre dateStr cycle product) keys ok hkeys
  refine ⟨hlen, hmem kbad hbad, ?_⟩
  rw [downloadKeys, List.mem_map]
  exact ⟨kbad, hbad, by rw [hfailed]⟩

theorem okEx_f002 : okEx "gfs.20230101/00/atmos/gfs.t00z.pgrb2.0p25.f002" = false := by
  with_unfolding_all decide

theorem f002_mem : "gfs.20230101/00/atmos/gfs.t00z.pgrb2.0p25.f002" ∈ keysDl := by
  decide

/-- Witness for the amended C7 on the concrete four-key run. -/
theorem claim_C7_amended_failure_kept_witness :
    ((∀ k ∈ keysDl, isLeadOf (globPre "20230101" 0 "atmos").data k.data = true) ∧
     "gfs.20230101/00/atmos/gfs.t00z.pgrb2.0p25.f002" ∈ keysDl ∧
     okEx "gfs.20230101/00/atmos/gfs.t00z.pgrb2.0p25.f002" = false) ∧
    ((invFiles (globPre "20230101" 0 "atmos") (downloadKeys keysDl okEx)).length =
       keysDl.length ∧
     ("gfs.20230101/00/atmos/gfs.t00z.pgrb2.0p25.f002" ++ ".grib2") ∈
       invFiles (globPre "20230101" 0 "atmos") (downloadKeys keysDl okEx) ∧
     FsFile.mk ("gfs.20230101/00/atmos/gfs.t00z.pgrb2.0p25.f002" ++ ".grib2") false ∈
       downloadKeys keysDl okEx) :=
  ⟨⟨keysDl_canonical, f002_mem, okEx_f002⟩,
   claim_C7_amended_failure_kept "20230101" 0 "atmos" keysDl okEx
     "gfs.20230101/00/atmos/gfs.t00z.pgrb2.0p25.f002" keysDl_canonical f002_mem okEx_f002⟩

theorem fieldOk_some (ny nx : Nat) (o : Option (List (List ℚ)))
    (h : fieldOk ny nx o = true) :
    ∃ g, o = some g ∧ ny ≤ g.length ∧ ∀ row ∈ g, nx ≤ row.length := by
  cases o with
  | none => simp [fieldOk] at h
  | some g =>
    simp only [fieldOk, Bool.and_eq_true, decide_eq_true_eq, List.all_eq_true] at h
    exact ⟨g, rfl, h.1, h.2⟩

theorem fileOk_split (ny nx : Nat) (f : GribFile) (h : fileOk ny nx f = true) :
    fieldOk ny nx f.sh2 = true ∧ fieldOk ny nx f.t2m = true ∧
    fieldOk ny nx f.u10 = true ∧ fieldOk ny nx f.v10 = true ∧
    fieldOk ny nx f.prmsl = true ∧ fieldOk ny nx f.prate = true ∧
    fieldOk ny nx f.dlwrf = true ∧ fieldOk ny nx f.dswrf = true := by
  simp only [fileOk, Bool.and_eq_true] at h
  exact ⟨h.1.1.1.1.1.1.1, h.1.1.1.1.1.1.2, h.1.1.1.1.1.2, h.1.1.1.1.2,
    h.1.1.1.2, h.1.1.2, h.1.2, h.2⟩

theorem extractFile_snd_ok (w : LatLon) (i : Nat) (f : GribFile) (ny nx : Nat)
    (hok : fileOk ny nx f = true) : (extractFile w i f).2 = some (extractPure w f) := by
  obtain ⟨h1, h2, h3, h4, h5, h6, h7, h8⟩ := fileOk_split ny nx f hok
  obtain ⟨g1, hg1, -, -⟩ := fieldOk_some _ _ _ h1
  obtain ⟨g2, hg2, -, -⟩ := fieldOk_some _ _ _ h2
  obtain ⟨g3, hg3, -, -⟩ := fieldOk_some _ _ _ h3
  obtain ⟨g4, hg4, -, -⟩ := fieldOk_some _ _ _ h4
  obtain ⟨g5, hg5, -, -⟩ := fieldOk_some _ _ _ h5
  obtain ⟨g6, hg6, -, -⟩ := fieldOk_some _ _ _ h6
  obtain ⟨g7, hg7, -, -⟩ := fieldOk_some _ _ _ h7
  obtain ⟨g8, hg8, -, -⟩ := fieldOk_some _ _ _ h8
  simp [extractFile, decodeStep, extractPure, hg1, hg2, hg3, hg4, hg5, hg6, hg7, hg8]

theorem extractFiles_snd_ok (w : LatLon) (i : Nat) (files : List GribFile)
    (ny nx : Nat) (hok : ∀ f ∈ files, fileOk ny nx f = true) :
    (extractFiles w i files).2 = some (files.map (extractPure w)) := by
  induction files generalizing i with
  | nil => simp [extractFiles]
  | cons f rest ih =>
    simp only [extractFiles,
      extractFile_snd_ok w i f ny nx (hok f (List.mem_cons_self f rest)),
      ih (i + 1) fun f hf => hok f (List.mem_cons_of_mem _ hf)]
    simp

theorem windowField_length (iy0 iy1 ix0 ix1 : Nat) (g : List (List ℚ))
    (h : iy1 + 1 ≤ g.length) :
    (windowField iy0 iy1 ix0 ix1 g).length = iy1 + 1 - iy0 := by
  simp only [windowField, List.length_reverse, List.length_map, List.length_take,
    List.length_drop]
  omega

theorem windowField_rows (iy0 iy1 ix0 ix1 : Nat) (g : List (List ℚ))
    (hrow : ∀ row ∈ g, ix1 + 1 ≤ row.length) :
    ∀ row ∈ windowField iy0 iy1 ix0 ix1 g, row.length = ix1 + 1 - ix0 := by
  intro row hr
  rw [windowField, List.mem_reverse, List.mem_map] at hr
  obtain ⟨row0, hrow0, rfl⟩ := hr
  have hmem : row0 ∈ g :=
    ((List.take_sublist _ _).trans (List.drop_sublist _ _)).mem hrow0
  simp only [List.length_take, List.length_drop]
  have := hrow row0 hmem
  omega

theorem timeCoord_length (n : Nat) : (timeCoord n).length = n := by
  rw [timeCoord, List.length_map, List.length_range]

theorem timeCoord_get (n h : Nat) (h1 : 1 ≤ h) (h2 : h ≤ n) :
    (timeCoord n)[h - 1]? = some (round4 ((h : ℚ) / 24)) := by
  rw [timeCoord, List.getElem?_map, List.getElem?_range (by omega)]
  simp only [Option.map_some']
  congr 1
  rw [Nat.cast_sub h1, Nat.cast_one]
  ring_nf

theorem shape3_of_extract (files : List GribFile) (w : LatLon)
    (proj : FileFields → List (List ℚ)) (sel : GribFile → Option (List (List ℚ)))
    (hcomp : ∀ f, proj (extractPure w f) =
      windowField w.idx_ymin w.idx_ymax w.idx_xmin w.idx_xmax ((sel f).getD []))
    (hsel : ∀ f ∈ files, fieldOk (w.idx_ymax + 1) (w.idx_xmax + 1) (sel f) = true) :
    shape3 files.length (w.idx_ymax + 1 - w.idx_ymin) (w.idx_xmax + 1 - w.idx_xmin)
      ((files.map (extractPure w)).map proj) := by
  constructor
  · simp
  · intro m hm
    rw [List.map_map, List.mem_map] at hm
    obtain ⟨f, hf, rfl⟩ := hm
    simp only [Function.comp_apply, hcomp f]
    obtain ⟨g, hg, hgl, hgrow⟩ := fieldOk_some _ _ _ (hsel f hf)
    rw [hg, Option.getD_some]
    exact ⟨windowField_length _ _ _ _ g hgl, windowField_rows _ _ _ _ g hgrow⟩

theorem seriesOf_of_extract (files : List GribFile) (w : LatLon)
    (proj : FileFields → List (List ℚ)) (sel : GribFile → Option (List (List ℚ)))
    (hcomp : ∀ f, proj (extractPure w f) =
      windowField w.idx_ymin w.idx_ymax w.idx_xmin w.idx_xmax ((sel f).getD []))
    (hsel : ∀ f ∈ files, fieldOk (w.idx_ymax + 1) (w.idx_xmax + 1) (sel f) = true) :
    seriesOf files sel w ((files.map (extractPure w)).map proj) := by
  intro i
  rw [List.map_map, List.getElem?_map]
  cases hfi : files[i]? with
  | none => simp
  | some f =>
    have hfmem : f ∈ files := List.getElem?_mem hfi
    obtain ⟨g, hg, -, -⟩ := fieldOk_some _ _ _ (hsel f hfmem)
    simp only [Option.map_some', Function.comp_apply, hcomp f, Option.some_bind, hg,
      Option.getD_some]

/-- C1: for a day whose retrieved files all decode and cover the grid
window, `gen_sflux` succeeds and every one of the eight output variables
is a list of `H = files.length` matrices of shape
`(Ny, Nx) = (idx_ymax + 1 - idx_ymin, idx_xmax + 1 - idx_xmin)`, where
entry `i` is the windowed row-reversed slice of file `i`'s decoded field
(forecast-hour order); the time coordinate has length `H` and value
`round4 (h / 24)` at position `h - 1` for `h = 1..H`. -/
theorem claim_C1_round_trip_shape (bbox : BBox) (f0 : GribFile) (rest : List GribFile)
    (w : LatLon)
    (hw : modified_latlon bbox f0.lonv f0.latv = some w)
    (hok : ∀ f ∈ f0 :: rest, fileOk (w.idx_ymax + 1) (w.idx_xmax + 1) f = true) :
    ∃ ds, (gen_sflux bbox (f0 :: rest)).2 = some ds ∧
      (shape3 (f0 :: rest).length (w.idx_ymax + 1 - w.idx_ymin)
          (w.idx_xmax + 1 - w.idx_xmin) ds.stmp ∧
       shape3 (f0 :: rest).length (w.idx_ymax + 1 - w.idx_ymin)
          (w.idx_xmax + 1 - w.idx_xmin) ds.spfh ∧
       shape3 (f0 :: rest).length (w.idx_ymax + 1 - w.idx_ymin)
          (w.idx_xmax + 1 - w.idx_xmin) ds.uwind ∧
       shape3 (f0 :: rest).length (w.idx_ymax + 1 - w.idx_ymin)
          (w.idx_xmax + 1 - w.idx_xmin) ds.vwind ∧
       shape3 (f0 :: rest).length (w.idx_ymax + 1 - w.idx_ymin)
          (w.idx_xmax + 1 - w.idx_xmin) ds.prmsl ∧
       shape3 (f0 :: rest).length (w.idx_ymax + 1 - w.idx_ymin)
          (w.idx_xmax + 1 - w.idx_xmin) ds.prate ∧
       shape3 (f0 :: rest).length (w.idx_ymax + 1 - w.idx_ymin)
          (w.idx_xmax + 1 - w.idx_xmin) ds.dlwrf ∧
       shape3 (f0 :: rest).length (w.idx_ymax + 1 - w.idx_ymin)
          (w.idx_xmax + 1 - w.idx_xmin) ds.dswrf) ∧
      (seriesOf (f0 :: rest) GribFile.t2m w ds.stmp ∧
       seriesOf (f0 :: rest) GribFile.sh2 w ds.spfh ∧
       seriesOf (f0 :: rest) GribFile.u10 w ds.uwind ∧
       seriesOf (f0 :: rest) GribFile.v10 w ds.vwind ∧
       seriesOf (f0 :: rest) GribFile.prmsl w ds.prmsl ∧
       seriesOf (f0 :: rest) GribFile.prate w ds.prate ∧
       seriesOf (f0 :: rest) GribFile.dlwrf w ds.dlwrf ∧
       seriesOf (f0 :: rest) GribFile.dswrf w ds.dswrf) ∧
      ds.time.length = (f0 :: rest).length ∧
      ∀ h : Nat, 1 ≤ h → h ≤ (f0 :: rest).length →
        ds.time[h - 1]? = some (round4 ((h : ℚ) / 24)) := by
  have hffs := extractFiles_snd_ok w 0 (f0 :: rest) (w.idx_ymax + 1) (w.idx_xmax + 1) hok
  have hs := fun f (hf : f ∈ f0 :: rest) =>
    fileOk_split (w.idx_ymax + 1) (w.idx_xmax + 1) f (hok f hf)
  refine ⟨_, gen_sflux_snd bbox f0 rest w ((f0 :: rest).map (extractPure w)) hw hffs,
    ⟨?_, ?_, ?_, ?_, ?_, ?_, ?_, ?_⟩, ⟨?_, ?_, ?_, ?_, ?_, ?_, ?_, ?_⟩, ?_, ?_⟩
  · exact shape3_of_extract _ w FileFields.t2m GribFile.t2m (fun _ => rfl)
      (fun f hf => (hs f hf).2.1)
  · exact shape3_of_extract _ w FileFields.sh2 GribFile.sh2 (fun _ => rfl)
      (fun f hf => (hs f hf).1)
  · exact shape3_of_extract _ w FileFields.u10 GribFile.u10 (fun _ => rfl)
      (fun f hf => (hs f hf).2.2.1)
  · exact shape3_of_extract _ w FileFields.v10 GribFile.v10 (fun _ => rfl)
      (fun f hf => (hs f hf).2.2.2.1)
  · exact shape3_of_extract _ w FileFields.prmsl GribFile.prmsl (fun _ => rfl)
      (fun f hf => (hs f hf).2.2.2.2.1)
  · exact shape3_of_extract _ w FileFields.prate GribFile.prate (fun _ => rfl)
      (fun f hf => (hs f hf).2.2.2.2.2.1)
  · exact shape3_of_extract _ w FileFields.dlwrf GribFile.dlwrf (fun _ => rfl)
      (fun f hf => (hs f hf).2.2.2.2.2.2.1)
  · exact shape3_of_extract _ w FileFields.dswrf GribFile.dswrf (fun _ => rfl)
      (fun f hf => (hs f hf).2.2.2.2.2.2.2)
  · exact seriesOf_of_extract _ w FileFields.t2m GribFile.t2m (fun _ => rfl)
      (fun f hf => (hs f hf).2.1)
  · exact seriesOf_of_extract _ w FileFields.sh2 GribFile.sh2 (fun _ => rfl)
      (fun f hf => (hs f hf).1)
  · exact seriesOf_of_extract _ w FileFields.u10 GribFile.u10 (fun _ => rfl)
      (fun f hf => (hs f hf).2.2.1)
  · exact seriesOf_of_extract _ w FileFields.v10 GribFile.v10 (fun _ => rfl)
      (fun f hf => (hs f hf).2.2.2.1)
  · exact seriesOf_of_extract _ w FileFields.prmsl GribFile.prmsl (fun _ => rfl)
      (fun f hf => (hs f hf).2.2.2.2.1)
  · exact seriesOf_of_extract _ w FileFields.prate GribFile.prate (fun _ => rfl)
      (fun f hf => (hs f hf).2.2.2.2.2.1)
  · exact seriesOf_of_extract _ w FileFields.dlwrf GribFile.dlwrf (fun _ => rfl)
      (fun f hf => (hs f hf).2.2.2.2.2.2.1)
  · exact seriesOf_of_extract _ w FileFields.dswrf GribFile.dswrf (fun _ => rfl)
      (fun f hf => (hs f hf).2.2.2.2.2.2.2)
  · exact timeCoord_length _
  · exact fun h h1 h2 => timeCoord_get _ h h1 h2

theorem filesEx_ok :
    ∀ f ∈ fEx :: [fEx], fileOk (wEx.idx_ymax + 1) (wEx.idx_xmax + 1) f = true := by
  with_unfolding_all decide

/-- Witness for C1 at the concrete two-hour day over the 3x3 window. -/
theorem claim_C1_round_trip_shape_witness :
    (modified_latlon bbEx fEx.lonv fEx.latv = some wEx) ∧
    (∀ f ∈ fEx :: [fEx], fileOk (wEx.idx_ymax + 1) (wEx.idx_xmax + 1) f = true) ∧
    (∃ ds, (gen_sflux bbEx (fEx :: [fEx])).2 = some ds ∧
      (shape3 (fEx :: [fEx]).length (wEx.idx_ymax + 1 - wEx.idx_ymin)
          (wEx.idx_xmax + 1 - wEx.idx_xmin) ds.stmp ∧
       shape3 (fEx :: [fEx]).length (wEx.idx_ymax + 1 - wEx.idx_ymin)
          (wEx.idx_xmax + 1 - wEx.idx_xmin) ds.spfh ∧
       shape3 (fEx :: [fEx]).length (wEx.idx_ymax + 1 - wEx.idx_ymin)
          (wEx.idx_xmax + 1 - wEx.idx_xmin) ds.uwind ∧
       shape3 (fEx :: [fEx]).length (wEx.idx_ymax + 1 - wEx.idx_ymin)
          (wEx.idx_xmax + 1 - wEx.idx_xmin) ds.vwind ∧
       shape3 (fEx :: [fEx]).length (wEx.idx_ymax + 1 - wEx.idx_ymin)
          (wEx.idx_xmax + 1 - wEx.idx_xmin) ds.prmsl ∧
       shape3 (fEx :: [fEx]).length (wEx.idx_ymax + 1 - wEx.idx_ymin)
          (wEx.idx_xmax + 1 - wEx.idx_xmin) ds.prate ∧
       shape3 (fEx :: [fEx]).length (wEx.idx_ymax + 1 - wEx.idx_ymin)
          (wEx.idx_xmax + 1 - wEx.idx_xmin) ds.dlwrf ∧
       shape3 (fEx :: [fEx]).length (wEx.idx_ymax + 1 - wEx.idx_ymin)
          (wEx.idx_xmax + 1 - wEx.idx_xmin) ds.dswrf) ∧
      (seriesOf (fEx :: [fEx]) GribFile.t2m wEx ds.stmp ∧
       seriesOf (fEx :: [fEx]) GribFile.sh2 wEx ds.spfh ∧
       seriesOf (fEx :: [fEx]) GribFile.u10 wEx ds.uwind ∧
       seriesOf (fEx :: [fEx]) GribFile.v10 wEx ds.vwind ∧
       seriesOf (fEx :: [fEx]) GribFile.prmsl wEx ds.prmsl ∧
       seriesOf (fEx :: [fEx]) GribFile.prate wEx ds.prate ∧
       seriesOf (fEx :: [fEx]) GribFile.dlwrf wEx ds.dlwrf ∧
       seriesOf (fEx :: [fEx]) GribFile.dswrf wEx ds.dswrf) ∧
      ds.time.length = (fEx :: [fEx]).length ∧
      ∀ h : Nat, 1 ≤ h → h ≤ (fEx :: [fEx]).length →
        ds.time[h - 1]? = some (round4 ((h : ℚ) / 24))) :=
  ⟨modified_latlon_ex, filesEx_ok,
   claim_C1_round_trip_shape bbEx fEx [fEx] wEx modified_latlon_ex filesEx_ok⟩

theorem matchIdxs_sorted (a b : ℚ) (vec : List ℚ) :
    (matchIdxs a b vec).Pairwise (· < ·) :=
  List.Pairwise.sublist (List.filter_sublist _) (List.pairwise_lt_range _)

theorem mem_of_getLast_opt {α : Type} {l : List α} {x : α} (h : l.getLast? = some x) :
    x ∈ l := by
  rw [← List.head?_reverse] at h
  exact List.mem_reverse.mp (List.mem_of_mem_head? (Option.mem_def.mpr h))

theorem sorted_head_le {l : List Nat} (hp : l.Pairwise (· < ·)) {h0 x : Nat}
    (hh : l.head? = some h0) (hx : x ∈ l) : h0 ≤ x := by
  cases l with
  | nil => cases hx
  | cons n t =>
    injection hh with hh
    subst hh
    rcases List.mem_cons.mp hx with rfl | hx
    · exact le_refl x
    · exact le_of_lt ((List.pairwise_cons.mp hp).1 x hx)

theorem sorted_le_getLast {l : List Nat} (hp : l.Pairwise (· < ·)) {L x : Nat}
    (hL : l.getLast? = some L) (hx : x ∈ l) : x ≤ L := by
  rw [← List.head?_reverse] at hL
  have hp' : l.reverse.Pairwise fun a b => b < a := List.pairwise_reverse.mpr hp
  have hx' : x ∈ l.reverse := List.mem_reverse.mpr hx
  cases hrev : l.reverse with
  | nil => rw [hrev] at hx'; cases hx'
  | cons m t =>
    rw [hrev] at hL hp' hx'
    injection hL with hL
    subst hL
    rcases List.mem_cons.mp hx' with rfl | hx''
    · exact le_refl x
    · exact le_of_lt ((List.pairwise_cons.mp hp').1 x hx'')

theorem pairwise_gt_getD_le (vec : List ℚ) (hv : vec.Pairwise (· > ·)) (m k : Nat)
    (hmk : m ≤ k) (hk : k < vec.length) : vec.getD k 0 ≤ vec.getD m 0 := by
  rcases eq_or_lt_of_le hmk with rfl | hlt
  · exact le_refl _
  · have h := List.pairwise_iff_getElem.mp hv m k (by omega) hk hlt
    rw [List.getD_eq_getElem vec 0 hk, List.getD_eq_getElem vec 0 (by omega)]
    exact le_of_lt h

theorem matchIdxs_contiguous (a b : ℚ) (vec : List ℚ) (hv : vec.Pairwise (· > ·))
    (i0 i1 : Nat) (h0 : (matchIdxs a b vec).head? = some i0)
    (h1 : (matchIdxs a b vec).getLast? = some i1) :
    matchIdxs a b vec = List.range' i0 (i1 + 1 - i0) := by
  have hsort := matchIdxs_sorted a b vec
  have h0mem : i0 ∈ matchIdxs a b vec := List.mem_of_mem_head? (Option.mem_def.mpr h0)
  have h1mem : i1 ∈ matchIdxs a b vec := mem_of_getLast_opt h1
  obtain ⟨h0len, h0band⟩ := (matchIdxs_mem a b vec i0).mp h0mem
  obtain ⟨h1len, h1band⟩ := (matchIdxs_mem a b vec i1).mp h1mem
  have hle : i0 ≤ i1 := sorted_le_getLast hsort h1 h0mem
  rw [inBand, Bool.and_eq_true, decide_eq_true_eq, decide_eq_true_eq] at h0band h1band
  have hmem_iff : ∀ m, m ∈ matchIdxs a b vec ↔ m ∈ List.range' i0 (i1 + 1 - i0) := by
    intro m
    rw [List.mem_range'_1]
    constructor
    · intro hm
      have hlo := sorted_head_le hsort h0 hm
      have hhi := sorted_le_getLast hsort h1 hm
      exact ⟨hlo, by omega⟩
    · rintro ⟨hm0, hm1⟩
      have hmlen : m < vec.length := by omega
      rw [matchIdxs_mem]
      refine ⟨hmlen, ?_⟩
      rw [inBand, Bool.and_eq_true, decide_eq_true_eq, decide_eq_true_eq]
      constructor
      · calc a - 1 ≤ vec.getD i1 0 := h1band.1
          _ ≤ vec.getD m 0 := pairwise_gt_getD_le vec hv m i1 (by omega) h1len
      · calc vec.getD m 0 ≤ vec.getD i0 0 := pairwise_gt_getD_le vec hv i0 m hm0 hmlen
          _ ≤ b + 1 := h0band.2
  haveI : IsAntisymm Nat (· < ·) := ⟨fun _ _ ha hb => absurd hb (Nat.lt_asymm ha)⟩
  haveI : IsIrrefl Nat (· < ·) := ⟨Nat.lt_irrefl⟩
  exact List.eq_of_perm_of_sorted
    ((List.perm_ext_iff_of_nodup hsort.nodup
      (List.pairwise_lt_range' _ _).nodup).mpr hmem_iff)
    hsort (List.pairwise_lt_range' _ _)

theorem windowField_get (iy0 iy1 ix0 ix1 : Nat) (g : List (List ℚ)) (i : Nat)
    (hlen : iy1 < g.length) (hi : i < iy1 + 1 - iy0) :
    (windowField iy0 iy1 ix0 ix1 g)[i]? =
      some (((g.getD (iy1 - i) []).drop ix0).take (ix1 + 1 - ix0)) := by
  have hn : (((g.drop iy0).take (iy1 + 1 - iy0)).map fun row =>
      (row.drop ix0).take (ix1 + 1 - ix0)).length = iy1 + 1 - iy0 := by
    simp only [List.length_map, List.length_take, List.length_drop]
    omega
  rw [windowField, List.getElem?_reverse (by rw [hn]; exact hi), hn,
    List.getElem?_map, List.getElem?_take, if_pos (by omega), List.getElem?_drop]
  have hidx : iy0 + (iy1 + 1 - iy0 - 1 - i) = iy1 - i := by omega
  rw [hidx, List.getElem?_eq_getElem (by omega : iy1 - i < g.length)]
  simp only [Option.map_some']
  rw [List.getD_eq_getElem g [] (by omega : iy1 - i < g.length)]

theorem lat2_reverse_get (latv : List ℚ) (i0 i1 i : Nat) (hi : i < i1 + 1 - i0) :
    (((List.range' i0 (i1 + 1 - i0)).map fun j => latv.getD j 0).reverse)[i]? =
      some (latv.getD (i1 - i) 0) := by
  have hlen : ((List.range' i0 (i1 + 1 - i0)).map fun j => latv.getD j 0).length =
      i1 + 1 - i0 := by simp
  rw [List.getElem?_reverse (by rw [hlen]; exact hi), hlen, List.getElem?_map,
    List.getElem?_range' _ _ (by omega)]
  simp only [Option.map_some']
  congr 2
  omega

/-- C4: when the native latitude vector is strictly descending (the
native grid convention), any field that covers the window is windowed and
row-reversed by exactly the same reversal as the latitude coordinate
grid: both have the same number of rows; row `i` of the field is the
x-window of native row `idx_ymax - i`, while every entry of row `i` of
the latitude grid is the native latitude at the same index
`idx_ymax - i`; and the latitude value strictly increases with the row
index. -/
theorem claim_C4_row_alignment (bbox : BBox) (lonv latv : List ℚ) (r : LatLon)
    (g : List (List ℚ))
    (hlat : latv.Pairwise (· > ·))
    (hres : modified_latlon bbox lonv latv = some r)
    (hg : r.idx_ymax < g.length) :
    (windowField r.idx_ymin r.idx_ymax r.idx_xmin r.idx_xmax g).length = r.lat.length ∧
    r.lat.length = r.idx_ymax + 1 - r.idx_ymin ∧
    (∀ i, i < r.idx_ymax + 1 - r.idx_ymin →
      (windowField r.idx_ymin r.idx_ymax r.idx_xmin r.idx_xmax g)[i]? =
        some (((g.getD (r.idx_ymax - i) []).drop r.idx_xmin).take
          (r.idx_xmax + 1 - r.idx_xmin)) ∧
      ∀ x ∈ r.lat.getD i [], x = latv.getD (r.idx_ymax - i) 0) ∧
    (∀ i x y, i + 1 < r.idx_ymax + 1 - r.idx_ymin →
      x ∈ r.lat.getD i [] → y ∈ r.lat.getD (i + 1) [] → x < y) := by
  obtain ⟨-, -, hy0, hy1, -, hlat_eq⟩ := modified_latlon_inv bbox lonv latv r hres
  have hsort := matchIdxs_sorted bbox.ymin bbox.ymax latv
  have hcont := matchIdxs_contiguous bbox.ymin bbox.ymax latv hlat
    r.idx_ymin r.idx_ymax hy0 hy1
  have h0mem : r.idx_ymin ∈ matchIdxs bbox.ymin bbox.ymax latv :=
    List.mem_of_mem_head? (Option.mem_def.mpr hy0)
  have h1mem : r.idx_ymax ∈ matchIdxs bbox.ymin bbox.ymax latv := mem_of_getLast_opt hy1
  have h1len : r.idx_ymax < latv.length :=
    ((matchIdxs_mem bbox.ymin bbox.ymax latv r.idx_ymax).mp h1mem).1
  rw [hcont] at hlat_eq
  have hlatlen : r.lat.length = r.idx_ymax + 1 - r.idx_ymin := by
    rw [hlat_eq]
    simp
  have hrowval : ∀ i, i < r.idx_ymax + 1 - r.idx_ymin →
      r.lat[i]? = some ((((matchIdxs (normLon bbox.xmin) (normLon bbox.xmax) lonv).map
        fun j => lonv.getD j 0).map fix180).map
          fun _ => latv.getD (r.idx_ymax - i) 0) := by
    intro i hi
    rw [hlat_eq, List.getElem?_map, lat2_reverse_get latv _ _ i hi]
    rfl
  refine ⟨?_, hlatlen, ?_, ?_⟩
  · rw [windowField_length _ _ _ _ g (by omega), hlatlen]
  · intro i hi
    constructor
    · exact windowField_get _ _ _ _ g i (by omega) hi
    · intro x hx
      rw [List.getD_eq_getElem?_getD, hrowval i hi] at hx
      simp only [Option.getD_some] at hx
      obtain ⟨-, -, hx⟩ := List.mem_map.mp hx
      exact hx.symm
  · intro i x y hi hx hy
    rw [List.getD_eq_getElem?_getD, hrowval i (by omega)] at hx
    rw [List.getD_eq_getElem?_getD, hrowval (i + 1) hi] at hy
    simp only [Option.getD_some] at hx hy
    obtain ⟨-, -, hx⟩ := List.mem_map.mp hx
    obtain ⟨-, -, hy⟩ := List.mem_map.mp hy
    subst hx
    subst hy
    have hidx : r.idx_ymax - (i + 1) < r.idx_ymax - i := by omega
    have h := List.pairwise_iff_getElem.mp hlat (r.idx_ymax - (i + 1)) (r.idx_ymax - i)
      (by omega) (by omega) hidx
    rw [List.getD_eq_getElem latv 0 (by omega : r.idx_ymax - i < latv.length),
      List.getD_eq_getElem latv 0 (by omega : r.idx_ymax - (i + 1) < latv.length)]
    exact h

theorem latvEx_desc : latvEx.Pairwise (· > ·) := by with_unfolding_all decide

/-- Witness for C4 on the concrete descending latitude vector, window and
3x3 field. -/
theorem claim_C4_row_alignment_witness :
    latvEx.Pairwise (· > ·) ∧
    modified_latlon bbEx lonvEx latvEx = some wEx ∧
    wEx.idx_ymax < gEx.length ∧
    ((windowField wEx.idx_ymin wEx.idx_ymax wEx.idx_xmin wEx.idx_xmax gEx).length =
       wEx.lat.length ∧
     wEx.lat.length = wEx.idx_ymax + 1 - wEx.idx_ymin ∧
     (∀ i, i < wEx.idx_ymax + 1 - wEx.idx_ymin →
       (windowField wEx.idx_ymin wEx.idx_ymax wEx.idx_xmin wEx.idx_xmax gEx)[i]? =
         some (((gEx.getD (wEx.idx_ymax - i) []).drop wEx.idx_xmin).take
           (wEx.idx_xmax + 1 - wEx.idx_xmin)) ∧
       ∀ x ∈ wEx.lat.getD i [], x = latvEx.getD (wEx.idx_ymax - i) 0) ∧
     (∀ i x y, i + 1 < wEx.idx_ymax + 1 - wEx.idx_ymin →
       x ∈ wEx.lat.getD i [] → y ∈ wEx.lat.getD (i + 1) [] → x < y)) :=
  ⟨latvEx_desc, modified_latlon_ex, by decide,
   claim_C4_row_alignment bbEx lonvEx latvEx wEx gEx latvEx_desc modified_latlon_ex
     (by decide)⟩
